import Mathlib

/-!
Verification of the `tsilva/.github` maintenance engine (Python) against its
natural-language specification, via a shallow embedding in Lean 4.

The embedding mirrors, module by module:
  * `src/tsilva_maintain/rules/__init__.py` — `Status`, `CheckResult`, `FixOutcome`
  * `src/tsilva_maintain/engine.py`         — `RuleResult`, `RepoResult`,
    `RuleRunner.run._process_repo` (the per-repository check/fix/verify loop),
    `RuleRunner._output_summary` / `_output_json` exit codes
  * `src/tsilva_maintain/rules/_registry.py` — `_CANONICAL_ORDER`, `discover_rules`
  * `src/tsilva_maintain/repo.py`            — `Repo.discover`
  * the auto-fixable rules of `src/tsilva_maintain/rules/` and the merged
    `GITIGNORE` rule of `src/gitguard/rules/gitignore.py`.

Python exceptions are modelled with `Except String`; the filesystem is an
association list from path to file content; external subprocess collaborators
(git, the GitHub CLI, `json`/`tomllib` parsing, regular-expression helpers)
are modelled as explicit parameters, since the code consumes them through
narrow adapter interfaces.
-/

namespace TsilvaMaintain

/-- Embeds `Status` enum of `rules/__init__.py`. -/
inductive Status
  | PASS
  | FAIL
  | SKIP
deriving DecidableEq, Repr

/-- Embeds `CheckResult` dataclass of `rules/__init__.py`. -/
structure CheckResult where
  status : Status
  message : String := ""
deriving DecidableEq, Repr

/-- Embeds `FixOutcome` dataclass of `rules/__init__.py`: `status` is one of the
string constants `"fixed"`, `"already_ok"`, `"skipped"`, `"manual"`,
`"failed"`. -/
structure FixOutcome where
  status : String
  message : String := ""
deriving DecidableEq, Repr

namespace FixOutcome

def FIXED : String := "fixed"

def ALREADY_OK : String := "already_ok"

def SKIPPED : String := "skipped"

def MANUAL : String := "manual"

def FAILED : String := "failed"

end FixOutcome

/-- Embeds `RuleResult` dataclass of `engine.py`. -/
structure RuleResult where
  rule_id : String
  status : String
  message : String := ""
deriving DecidableEq, Repr

/-- Embeds `RepoResult` dataclass of `engine.py`. -/
structure RepoResult where
  name : String
  path : String
  results : List RuleResult := []
deriving DecidableEq, Repr

/-- Embeds `RepoResult.total` property. -/
def RepoResult.total (rr : RepoResult) : Nat :=
  rr.results.length

/-- Embeds `RepoResult.passed` property: results with status `"pass"` or `"skip"`. -/
def RepoResult.passed (rr : RepoResult) : Nat :=
  (rr.results.filter (fun r => r.status == "pass" || r.status == "skip")).length

/-- Embeds `RepoResult.fixed` property: results with status `"fixed"`. -/
def RepoResult.fixed (rr : RepoResult) : Nat :=
  (rr.results.filter (fun r => r.status == "fixed")).length

/-- Embeds `RepoResult.manual` property: results with status `"manual"`, `"failed"`
or `"fix_failed"`. -/
def RepoResult.manual (rr : RepoResult) : List RuleResult :=
  rr.results.filter
    (fun r => r.status == "manual" || r.status == "failed" || r.status == "fix_failed")

/-- Embeds `RepoResult.all_ok` property: `len(self.manual) == 0`. -/
def RepoResult.all_ok (rr : RepoResult) : Bool :=
  rr.manual.length == 0

/-- Observable side effects of the runner and of rule fixes (git fetch, clone,
`git rm --cached`, `gh repo edit`, the settings-optimizer rewrite). -/
inductive Effect
  | fetchAll (path : String)
  | cloneRepo (name : String)
  | gitRmCached (path : String) (files : List String)
  | ghSetDescription (repo : String) (desc : String)
  | optimizerAutoFix
deriving DecidableEq, Repr

/-- The view the engine has of one rule applied to one repository: the values (or
exceptions, as `Except.error`) produced by the four calls the loop body of
`RuleRunner.run._process_repo` can make — `rule.applies_to(repo)`,
`rule.check(repo)`, `rule.fix(repo, dry_run=...)`, and the re-run of
`rule.check(repo)` used as verification. -/
structure RuleExec where
  id : String
  applies_to : Except String Bool
  check : Except String CheckResult
  fix : Except String FixOutcome
  verify : Except String CheckResult
deriving Repr

/-- The body of the `for rule in rules` loop of `_process_repo`
(engine.py lines 180–221): produce one `RuleResult`, or propagate an
uncaught exception. -/
def processRule (dry_run : Bool) (rule : RuleExec) : Except String RuleResult :=
  match rule.applies_to with
  | .error e => .error e
  | .ok applies =>
    if !applies then .ok ⟨rule.id, "skip", ""⟩
    else
      match rule.check with
      | .error e => .error e
      | .ok result =>
        if result.status = Status.PASS then .ok ⟨rule.id, "pass", ""⟩
        else if result.status = Status.SKIP then .ok ⟨rule.id, "skip", ""⟩
        else
          match rule.fix with
          | .error e => .error e
          | .ok outcome =>
            if outcome.status = FixOutcome.FIXED then
              if dry_run then .ok ⟨rule.id, "fixed", outcome.message⟩
              else
                match rule.verify with
                | .error e => .error e
                | .ok verify =>
                  if verify.status = Status.PASS then .ok ⟨rule.id, "fixed", outcome.message⟩
                  else .ok ⟨rule.id, "fix_failed", verify.message⟩
            else if outcome.status = FixOutcome.ALREADY_OK then .ok ⟨rule.id, "pass", ""⟩
            else if outcome.status = FixOutcome.MANUAL then .ok ⟨rule.id, "manual", result.message⟩
            else if outcome.status = FixOutcome.SKIPPED then .ok ⟨rule.id, "manual", outcome.message⟩
            else .ok ⟨rule.id, "failed", outcome.message⟩

/-- The `try: for rule in rules ... except Exception as exc` block of
`_process_repo` (engine.py lines 179–223): results accumulate per rule; the
first uncaught exception stops the loop and appends the single synthetic
`("INTERNAL", "failed")` result. -/
def processRules (dry_run : Bool) : List RuleExec → List RuleResult
  | [] => []
  | rule :: rest =>
    match processRule dry_run rule with
    | .ok res => res :: processRules dry_run rest
    | .error e => [⟨"INTERNAL", "failed", e⟩]

/-- The view the engine has of one repository: name, path, the value (or exception)
of the `repo.is_dirty` property access at engine.py line 174, the outcome of
the best-effort `git.fetch_all` call (its value is swallowed by
`except Exception: pass`), and the per-rule behaviours.

`is_dirty` is referenced by `engine.py` but its definition is not part of
this snapshot of the repository; it is therefore kept abstract as the
`Except`-value its access produces. -/
structure RepoExec where
  name : String
  path : String
  is_dirty : Except String Bool
  fetch_all : Except String Unit
  rules : List RuleExec
deriving Repr

/-- Embeds `_process_repo` (engine.py lines 172–224).  The `repo.is_dirty` access on
line 174 executes *before* the `try` block that guards the rule loop, so an
exception raised there propagates out of `_process_repo`; the `git.fetch_all`
call is wrapped in its own `try/except Exception: pass`, so its outcome is
discarded.  Returns the `RepoResult` together with the engine-level effects
(the attempted fetch). -/
def processRepo (dry_run : Bool) (repo : RepoExec) : Except String (RepoResult × List Effect) :=
  if dry_run then
    .ok (⟨repo.name, repo.path, processRules dry_run repo.rules⟩, [])
  else
    match repo.is_dirty with
    | .error e => .error e
    | .ok dirty =>
      let effs := if dirty then [] else [Effect.fetchAll repo.path]
      .ok (⟨repo.name, repo.path, processRules dry_run repo.rules⟩, effs)

/-- Embeds `list(pool.map(_process_repo, repos))` (engine.py lines 226–228): the
results are collected in repository order, and an exception that escaped
`_process_repo` re-raises when the map is iterated, aborting `run` with no
result list.  (In Python the remaining worker tasks still execute before the
re-raise; only the collected results are modelled here.) -/
def runRepos (dry_run : Bool) : List RepoExec → Except String (List (RepoResult × List Effect))
  | [] => .ok []
  | repo :: rest =>
    match processRepo dry_run repo with
    | .error e => .error e
    | .ok pr =>
      match runRepos dry_run rest with
      | .error e => .error e
      | .ok prs => .ok (pr :: prs)

/-- Exit code of `RuleRunner._output_summary` (engine.py lines 240–289):
`needs_work` counts repositories whose `manual` list is non-empty; the
return value is `1 if needs_work > 0 else 0`. -/
def output_summary_exit (repo_results : List RepoResult) : Nat :=
  let needs_work := (repo_results.filter (fun rr => !rr.manual.isEmpty)).length
  if needs_work > 0 then 1 else 0

/-- Embeds `total_failed` counter of `RuleRunner._output_json` (engine.py lines
297–311): one per check whose status is not `"pass"`, `"skip"` or
`"fixed"`. -/
def output_json_total_failed (repo_results : List RepoResult) : Nat :=
  (repo_results.map (fun rr =>
    (rr.results.filter (fun r =>
      !(r.status == "pass" || r.status == "skip" || r.status == "fixed"))).length)).sum

/-- Embeds `total_passed` counter of `RuleRunner._output_json`. -/
def output_json_total_passed (repo_results : List RepoResult) : Nat :=
  (repo_results.map (fun rr =>
    (rr.results.filter (fun r =>
      r.status == "pass" || r.status == "skip" || r.status == "fixed")).length)).sum

/-- Exit code of `RuleRunner._output_json` (engine.py line 347):
`1 if total_failed > 0 else 0`. -/
def output_json_exit (repo_results : List RepoResult) : Nat :=
  if output_json_total_failed repo_results > 0 then 1 else 0

/-! ### String helpers mirroring Python primitives -/

/-- Whether the first character list is a leading segment of the second. -/
def leadsB : List Char → List Char → Bool
  | [], _ => true
  | _ :: _, [] => false
  | a :: as, b :: bs => a == b && leadsB as bs

/-- Whether the first character list occurs contiguously inside the second. -/
def hasSubB (n : List Char) : List Char → Bool
  | [] => n.isEmpty
  | c :: h => leadsB n (c :: h) || hasSubB n h

/-- Python `needle in hay` on strings: contiguous-substring test. -/
def strIn (needle hay : String) : Bool :=
  hasSubB needle.toList hay.toList

/-- Python `str.lower()` (ASCII, as in the embedded contents). -/
def pyLower (s : String) : String :=
  String.mk (s.toList.map Char.toLower)

/-- Python `str.startswith`. -/
def pyStartsWith (s pre : String) : Bool :=
  leadsB pre.toList s.toList

/-- Python `str.endswith`. -/
def pyEndsWith (s post : String) : Bool :=
  leadsB post.toList.reverse s.toList.reverse

/-- Python `str.strip()` (whitespace on both ends). -/
def pyStrip (s : String) : String :=
  String.mk (((s.toList.dropWhile Char.isWhitespace).reverse.dropWhile Char.isWhitespace).reverse)

/-- Helper for splitting on the newline character. -/
def splitNlAux (acc : List Char) : List Char → List String
  | [] => [String.mk acc.reverse]
  | c :: cs =>
    if c == '\n' then String.mk acc.reverse :: splitNlAux [] cs
    else splitNlAux (c :: acc) cs

/-- Python `str.split("\n")` (also the behaviour of `splitOn "\n"`). -/
def splitNl (s : String) : List String :=
  splitNlAux [] s.toList

/-- Lexicographic `≤` on character lists by code point, as Python compares
strings. -/
def lexLeB : List Char → List Char → Bool
  | [], _ => true
  | _ :: _, [] => false
  | a :: as, b :: bs =>
    if a.toNat < b.toNat then true
    else if b.toNat < a.toNat then false
    else lexLeB as bs

/-- Python `<=` on strings. -/
def strLe (a b : String) : Bool :=
  lexLeB a.toList b.toList

/-- Insertion step of the sort used to model Python `sorted`. -/
def insertSorted (le : α → α → Bool) (x : α) : List α → List α
  | [] => [x]
  | y :: ys => if le x y then x :: y :: ys else y :: insertSorted le x ys

/-- Python `sorted` (on values with no duplicates the stable ascending sort is
the unique sorted permutation, so insertion sort models it exactly). -/
def sortBy (le : α → α → Bool) : List α → List α
  | [] => []
  | x :: xs => insertSorted le x (sortBy le xs)

theorem mem_insertSorted (le : α → α → Bool) (x : α) (l : List α) (a : α) :
    a ∈ insertSorted le x l ↔ a = x ∨ a ∈ l := by
  induction l with
  | nil => simp [insertSorted]
  | cons y ys ih =>
    by_cases h : le x y = true
    · simp [insertSorted, h]
    · simp only [insertSorted, h, if_neg, Bool.not_eq_true] at *
      simp [List.mem_cons, ih]
      tauto

theorem mem_sortBy (le : α → α → Bool) (l : List α) (a : α) :
    a ∈ sortBy le l ↔ a ∈ l := by
  induction l with
  | nil => simp [sortBy]
  | cons x xs ih => simp [sortBy, mem_insertSorted, ih]

theorem lexLeB_total : ∀ x y : List Char, lexLeB x y = true ∨ lexLeB y x = true
  | [], _ => Or.inl rfl
  | _ :: _, [] => Or.inr rfl
  | a :: as, b :: bs => by
    simp only [lexLeB]
    rcases Nat.lt_trichotomy a.toNat b.toNat with h | h | h
    · simp [h]
    · have h1 : ¬ a.toNat < b.toNat := by omega
      have h2 : ¬ b.toNat < a.toNat := by omega
      simpa [h1, h2] using lexLeB_total as bs
    · simp [h, Nat.lt_asymm h]

theorem lexLeB_trans : ∀ x y z : List Char,
    lexLeB x y = true → lexLeB y z = true → lexLeB x z = true
  | [], _, _ => by intro _ _; rfl
  | _ :: _, [], _ => by intro h _; exact absurd h (by simp [lexLeB])
  | _ :: _, _ :: _, [] => by intro _ h; exact absurd h (by simp [lexLeB])
  | a :: as, b :: bs, c :: cs => by
    intro hxy hyz
    simp only [lexLeB] at hxy hyz ⊢
    rcases Nat.lt_trichotomy a.toNat b.toNat with hab | hab | hab
    · rcases Nat.lt_trichotomy b.toNat c.toNat with hbc | hbc | hbc
      · simp [Nat.lt_trans hab hbc]
      · simp [show a.toNat < c.toNat by omega]
      · simp [Nat.lt_asymm hbc, hbc] at hyz
    · rcases Nat.lt_trichotomy b.toNat c.toNat with hbc | hbc | hbc
      · simp [show a.toNat < c.toNat by omega]
      · have h1 : ¬ a.toNat < b.toNat := by omega
        have h2 : ¬ b.toNat < a.toNat := by omega
        have h3 : ¬ b.toNat < c.toNat := by omega
        have h4 : ¬ c.toNat < b.toNat := by omega
        have h5 : ¬ a.toNat < c.toNat := by omega
        have h6 : ¬ c.toNat < a.toNat := by omega
        simp only [h1, h2, if_neg, if_false] at hxy
        simp only [h3, h4, if_neg, if_false] at hyz
        simp only [h5, h6, if_neg, if_false]
        exact lexLeB_trans as bs cs hxy hyz
      · simp [Nat.lt_asymm hbc, hbc] at hyz
    · simp [Nat.lt_asymm hab, hab] at hxy

theorem strLe_total (a b : String) : strLe a b = true ∨ strLe b a = true :=
  lexLeB_total a.toList b.toList

theorem strLe_trans (a b c : String) :
    strLe a b = true → strLe b c = true → strLe a c = true :=
  lexLeB_trans a.toList b.toList c.toList

theorem pairwise_insertSorted (le : α → α → Bool)
    (htot : ∀ a b, le a b = true ∨ le b a = true)
    (htrans : ∀ a b c, le a b = true → le b c = true → le a c = true)
    (x : α) (l : List α) (h : l.Pairwise (fun a b => le a b = true)) :
    (insertSorted le x l).Pairwise (fun a b => le a b = true) := by
  induction l with
  | nil => simp [insertSorted]
  | cons y ys ih =>
    rcases List.pairwise_cons.mp h with ⟨hy, hys⟩
    by_cases hxy : le x y = true
    · simp only [insertSorted, if_pos hxy]
      refine List.pairwise_cons.mpr ⟨?_, h⟩
      intro z hz
      rcases List.mem_cons.mp hz with rfl | hz
      · exact hxy
      · exact htrans x y z hxy (hy z hz)
    · have hyx : le y x = true := (htot x y).resolve_left hxy
      simp only [insertSorted, if_neg hxy]
      refine List.pairwise_cons.mpr ⟨?_, ih hys⟩
      intro z hz
      rcases (mem_insertSorted le x ys z).mp hz with rfl | hz
      · exact hyx
      · exact hy z hz

theorem pairwise_sortBy (le : α → α → Bool)
    (htot : ∀ a b, le a b = true ∨ le b a = true)
    (htrans : ∀ a b c, le a b = true → le b c = true → le a c = true)
    (l : List α) : (sortBy le l).Pairwise (fun a b => le a b = true) := by
  induction l with
  | nil => simp [sortBy]
  | cons x xs ih => exact pairwise_insertSorted le htot htrans x (sortBy le xs) ih

/-! ### `rules/_registry.py` -/

/-- Embeds `_CANONICAL_ORDER` of `rules/_registry.py`. -/
def CANONICAL_ORDER : List String := [
  "DEFAULT_BRANCH",
  "LICENSE_EXISTS",
  "LOGO_EXISTS",
  "GITIGNORE",
  "CLAUDE_MD_EXISTS",
  "PYTHON_PYPROJECT",
  "README_EXISTS",
  "README_CURRENT",
  "README_LICENSE",
  "README_LOGO",
  "README_CI_BADGE",
  "TRACKED_IGNORED",
  "CLAUDE_SANDBOX",
  "SETTINGS_DANGEROUS",
  "SETTINGS_CLEAN",
  "PYTHON_MIN_VERSION",
  "CLI_BUILD_BACKEND",
  "CLI_VERSION",
  "CLI_RELEASE_WORKFLOW",
  "CLI_PYPI_READY",
  "DEPENDABOT_EXISTS",
  "PRECOMMIT_GITLEAKS",
  "PENDING_COMMITS",
  "STALE_BRANCHES",
  "CI_WORKFLOW",
  "WORKFLOWS_PASSING",
  "RELEASE_WORKFLOW",
  "PII_SCAN",
  "REPO_DESCRIPTION"]

/-- Ordering core of `discover_rules` (`_registry.py` lines 65–74), as a
function of the set of discovered rule ids (the keys of the `instances`
dict, hence without duplicates): canonical ids that are present, in
canonical order, then the remaining ids sorted alphabetically. -/
def discover_rules_order (ids : List String) : List String :=
  CANONICAL_ORDER.filter (fun rid => ids.contains rid)
    ++ sortBy strLe (ids.filter (fun rid => !CANONICAL_ORDER.contains rid))

/-- The rule ids actually defined by the classes of the
`tsilva_maintain.rules` package in this snapshot (duplicate class
definitions of the same id collapse into one dict key). -/
def discovered_ids : List String := [
  "CI_PASSING",
  "CI_WORKFLOW",
  "CLAUDE_MD_EXISTS",
  "CLAUDE_SANDBOX",
  "CLI_BUILD_BACKEND",
  "CLI_PYPI_READY",
  "CLI_RELEASE_WORKFLOW",
  "CLI_VERSION",
  "DEFAULT_BRANCH",
  "DEPENDABOT_EXISTS",
  "GITIGNORE_COMPLETE",
  "GITIGNORE_EXISTS",
  "LICENSE_EXISTS",
  "PENDING_COMMITS",
  "PII_SCAN",
  "PRECOMMIT_GITLEAKS",
  "PYTHON_MIN_VERSION",
  "PYTHON_PYPROJECT",
  "README_CI_BADGE",
  "README_LICENSE",
  "README_LOGO",
  "RELEASE_WORKFLOW",
  "REPO_DESCRIPTION",
  "SETTINGS_CLEAN",
  "SETTINGS_DANGEROUS",
  "STALE_BRANCHES",
  "TRACKED_IGNORED",
  "WORKFLOWS_PASSING"]

/-! ### `repo.py` — `Repo.discover` -/

/-- One immediate child of the scan root, with the facts `Repo.discover`
inspects: its name, whether it is a directory, whether it contains a `.git`
directory, and (for the no-precomputed-set branch) whether the per-repository
`is_archived` probe reports it archived. -/
structure DirEntry where
  name : String
  is_dir : Bool
  has_git_dir : Bool
  is_archived : Bool
deriving DecidableEq, Repr

namespace Repo

/-- Embeds `Repo.discover` (repo.py lines 182–210): empty when the root is not a
directory; otherwise the sorted immediate children that are directories,
contain `.git`, match the non-empty filter substring, and survive archive
filtering (skip names in `archived_names` when that set is given, otherwise
skip entries whose `is_archived` probe is true; no filtering when
`skip_archived` is false). -/
def discover (root_is_dir : Bool) (children : List DirEntry)
    (filter_pattern : String) (skip_archived : Bool)
    (archived_names : Option (List String)) : List DirEntry :=
  if !root_is_dir then []
  else
    (sortBy (fun a b => strLe a.name b.name) children).filter fun child =>
      child.is_dir && child.has_git_dir
        && (filter_pattern == "" || strIn filter_pattern child.name)
        && (if skip_archived then
              match archived_names with
              | some names => !names.contains child.name
              | none => !child.is_archived
            else true)

end Repo

/-! ### Filesystem model and Python string primitives -/

/-- A repository working tree as an association list from relative file path
to file content (paths unique). -/
abbrev FS := List (String × String)

/-- Look up the content of a file. -/
def FS.read (fs : FS) (p : String) : Option String :=
  match fs.find? (fun e => e.1 == p) with
  | some e => some e.2
  | none => none

/-- Embeds `Path.is_file`. -/
def FS.isFile (fs : FS) (p : String) : Bool :=
  (FS.read fs p).isSome

/-- Embeds `Path.write_text`: overwrite or create. -/
def FS.write : FS → String → String → FS
  | [], p, c => [(p, c)]
  | e :: es, p, c => if e.1 == p then (p, c) :: es else e :: FS.write es p c

/-- Python `str.splitlines()` for `\n`-separated text (the only newline
convention occurring in the embedded file contents). -/
def pySplitlines (s : String) : List String :=
  if s == "" then []
  else
    let parts := splitNl s
    if parts.getLast? == some "" then parts.dropLast else parts

/-- Helper for `splitlines(keepends=True)`. -/
def splitKeepAux (acc : List Char) : List Char → List String
  | [] => if acc.isEmpty then [] else [String.mk acc.reverse]
  | c :: cs =>
    if c == '\n' then String.mk (c :: acc).reverse :: splitKeepAux [] cs
    else splitKeepAux (c :: acc) cs

/-- Python `str.splitlines(keepends=True)` for `\n`-separated text. -/
def pySplitlinesKeepends (s : String) : List String :=
  splitKeepAux [] s.toList

/-- Python `str.rstrip("/")`. -/
def rstripSlash (s : String) : String :=
  String.mk ((s.toList.reverse.dropWhile (fun c => c == '/')).reverse)

/-- Drop trailing lines whose `strip()` is empty
(`while lines and not lines[-1].strip(): lines.pop()`). -/
def dropTrailingBlanks (lines : List String) : List String :=
  (lines.reverse.dropWhile (fun l => pyStrip l == "")).reverse

/-- Python set equality of two lists viewed as sets. -/
def pySetEq (a b : List String) : Bool :=
  a.all (fun x => b.contains x) && b.all (fun x => a.contains x)

/-! ### Existence rules (`file_exists.py`, `license_exists.py`,
`claude_md_exists.py`, `gitignore_exists.py`) -/

/-- Embeds `ESSENTIAL_GITIGNORE` (`gitignore_exists.py` / `gitignore_complete.py` /
gitguard `_helpers.py`). -/
def ESSENTIAL_GITIGNORE : List String :=
  [".env", ".DS_Store", "node_modules/", "__pycache__/", "*.pyc", ".venv/"]

/-- Embeds `has_license_file`: first match among `LICENSE`, `LICENSE.md`,
`LICENSE.txt`. -/
def has_license_file (fs : FS) : Bool :=
  FS.isFile fs "LICENSE" || FS.isFile fs "LICENSE.md" || FS.isFile fs "LICENSE.txt"

/-- Embeds `LicenseExistsRule.check`. -/
def licenseExistsCheck (fs : FS) : CheckResult :=
  if has_license_file fs then ⟨.PASS, ""⟩ else ⟨.FAIL, "No LICENSE file found"⟩

/-- Embeds `LicenseExistsRule.fix` (license_exists.py lines 29–53).  The LICENSE
template text, the author resolved from `git config user.name` (with its
`"Author"` fallback) and the current year are read-only external inputs,
passed as parameters. -/
def licenseExistsFix (fs : FS) (dry_run : Bool) (template author year : String) :
    FixOutcome × FS :=
  if has_license_file fs then (⟨"already_ok", ""⟩, fs)
  else if dry_run then (⟨"fixed", "Would create LICENSE"⟩, fs)
  else
    let content := (template.replace "[year]" year).replace "[fullname]" author
    (⟨"fixed", "Created LICENSE (MIT, " ++ year ++ ", " ++ author ++ ")"⟩,
      FS.write fs "LICENSE" content)

/-- Embeds `ClaudeMdExistsRule.check`. -/
def claudeMdExistsCheck (fs : FS) : CheckResult :=
  if FS.isFile fs "CLAUDE.md" then ⟨.PASS, ""⟩ else ⟨.FAIL, "CLAUDE.md not found"⟩

/-- Embeds `ClaudeMdExistsRule.fix` (file_exists.py lines 61–75). -/
def claudeMdExistsFix (fs : FS) (dry_run : Bool) (template repo_name : String) :
    FixOutcome × FS :=
  if FS.isFile fs "CLAUDE.md" then (⟨"already_ok", ""⟩, fs)
  else if dry_run then (⟨"fixed", "Would create CLAUDE.md"⟩, fs)
  else
    (⟨"fixed", "Created CLAUDE.md"⟩,
      FS.write fs "CLAUDE.md" (template.replace "[project-name]" repo_name))

/-- Embeds `GitignoreExistsRule.check`. -/
def gitignoreExistsCheck (fs : FS) : CheckResult :=
  if FS.isFile fs ".gitignore" then ⟨.PASS, ""⟩ else ⟨.FAIL, ".gitignore not found"⟩

/-- Embeds `GitignoreExistsRule.fix` (gitignore_exists.py lines 20–35). -/
def gitignoreExistsFix (fs : FS) (dry_run : Bool) : FixOutcome × FS :=
  if FS.isFile fs ".gitignore" then (⟨"already_ok", ""⟩, fs)
  else if dry_run then (⟨"fixed", "Would create .gitignore with essential patterns"⟩, fs)
  else
    let content := "# Managed by tsilva/.github\n# Do not remove - synced automatically\n"
      ++ String.intercalate "\n" ESSENTIAL_GITIGNORE ++ "\n"
    (⟨"fixed", "Created .gitignore (" ++ toString ESSENTIAL_GITIGNORE.length ++ " patterns)"⟩,
      FS.write fs ".gitignore" content)

/-! ### `gitignore_complete.py` -/

/-- Embeds `GitignoreCompleteRule.check` (gitignore_complete.py lines 43–57):
case-insensitive substring test for each essential pattern with trailing `/`
stripped. -/
def gitignoreCompleteCheck (fs : FS) : CheckResult :=
  match FS.read fs ".gitignore" with
  | none => ⟨.FAIL, ".gitignore does not exist"⟩
  | some content =>
    let content_lower := pyLower content
    let missing := ESSENTIAL_GITIGNORE.filter
      (fun pat => !strIn (pyLower (rstripSlash pat)) content_lower)
    if missing.isEmpty then ⟨.PASS, ""⟩
    else ⟨.FAIL, "Missing " ++ toString missing.length ++ " patterns: "
      ++ String.intercalate " " missing⟩

/-- Embeds `GitignoreCompleteRule.fix` (gitignore_complete.py lines 59–94):
`gitignore_global` is the non-comment line list of the shared
`gitignore.global` document (empty when that document is unavailable, in
which case the essential list is the fallback); missing rules are decided by
exact line match and appended under the managed-block header. -/
def gitignoreCompleteFix (fs : FS) (dry_run : Bool) (gitignore_global : List String) :
    FixOutcome × FS :=
  let all_rules := if gitignore_global.isEmpty then ESSENTIAL_GITIGNORE else gitignore_global
  match FS.read fs ".gitignore" with
  | none => (⟨"skipped", ".gitignore does not exist"⟩, fs)
  | some content =>
    let missing := all_rules.filter (fun r => !(pySplitlines content).contains r)
    if missing.isEmpty then (⟨"already_ok", ""⟩, fs)
    else if dry_run then
      (⟨"fixed", "Would add " ++ toString missing.length ++ " missing rules"⟩, fs)
    else
      let app := (if content != "" && !(pyEndsWith content "\n") then "\n" else "")
        ++ "\n# Managed by tsilva/.github\n# Do not remove - synced automatically\n"
        ++ String.join (missing.map (fun r => r ++ "\n"))
      (⟨"fixed", "Added " ++ toString missing.length ++ " rules"⟩,
        FS.write fs ".gitignore" (content ++ app))

/-! ### README content rules (`readme_content.py`, `readme_logo.py`) -/

/-- Embeds `_readme_has_license_ref` (readme_content.py): the regex
`## license|# license|mit license|\[mit\]` is an alternation of literals, a
case-insensitive substring test. -/
def readme_has_license_ref (content : String) : Bool :=
  let cl := pyLower content
  strIn "## license" cl || strIn "# license" cl || strIn "mit license" cl || strIn "[mit]" cl

/-- Embeds `ReadmeLicenseRule.check`. -/
def readmeLicenseCheck (fs : FS) : CheckResult :=
  match FS.read fs "README.md" with
  | none => ⟨.FAIL, "README.md does not exist"⟩
  | some content =>
    if readme_has_license_ref content then ⟨.PASS, ""⟩
    else ⟨.FAIL, "README missing license reference"⟩

/-- Embeds `ReadmeLicenseRule.fix` (readme_content.py lines 30–45). -/
def readmeLicenseFix (fs : FS) (dry_run : Bool) : FixOutcome × FS :=
  match FS.read fs "README.md" with
  | none => (⟨"skipped", "No README.md"⟩, fs)
  | some content =>
    if !has_license_file fs then (⟨"skipped", "No LICENSE file"⟩, fs)
    else if readme_has_license_ref content then (⟨"already_ok", ""⟩, fs)
    else if dry_run then (⟨"fixed", "Would append license section"⟩, fs)
    else (⟨"fixed", "Appended license section"⟩,
      FS.write fs "README.md" (content ++ "\n## License\n\nMIT\n"))

/-- Embeds `LOGO_LOCATIONS` (imported by readme_logo.py from `logo_exists`; the
module defining it is present in the gitguard snapshot). -/
def LOGO_LOCATIONS : List String :=
  ["logo.png", "logo.svg", "logo.jpg",
   "assets/logo.png", "assets/logo.svg",
   "images/logo.png", "images/logo.svg",
   ".github/logo.png", ".github/logo.svg"]

/-- Insert `block` after the first line starting with `"# "` (assuming one
exists): the `lines.insert(i + 1, logo_block)` branch of
`ReadmeLogoRule.fix`. -/
def insertAfterHeading (block : String) : List String → List String
  | [] => []
  | l :: ls => if pyStartsWith l "# " then l :: block :: ls else l :: insertAfterHeading block ls

/-- Embeds `ReadmeLogoRule.fix` (readme_logo.py lines 30–67).  The two logo-reference
regexes are read-only; they are abstracted as the `has_logo_ref` predicate
parameter. -/
def readmeLogoFix (fs : FS) (has_logo_ref : String → Bool) (repo_name : String)
    (dry_run : Bool) : FixOutcome × FS :=
  match FS.read fs "README.md" with
  | none => (⟨"skipped", "No README.md"⟩, fs)
  | some content =>
    match LOGO_LOCATIONS.find? (fun loc => FS.isFile fs loc) with
    | none => (⟨"skipped", "No logo file found"⟩, fs)
    | some logo_path =>
      if has_logo_ref content then (⟨"already_ok", ""⟩, fs)
      else if dry_run then (⟨"fixed", "Would insert logo reference -> " ++ logo_path⟩, fs)
      else
        let logo_block := "\n<p align=\"center\">\n  <img src=\"" ++ logo_path
          ++ "\" alt=\"" ++ repo_name ++ " logo\" width=\"200\">\n</p>\n"
        let lines := pySplitlinesKeepends content
        let new_lines :=
          if lines.any (fun l => pyStartsWith l "# ") then insertAfterHeading logo_block lines
          else (logo_block ++ "\n") :: lines
        (⟨"fixed", "Inserted logo reference -> " ++ logo_path⟩,
          FS.write fs "README.md" (String.join new_lines))

/-! ### Remaining auto-fixable rules of `tsilva_maintain.rules` -/

/-- The `.yml`/`.yaml` entries under `.github/workflows/`
(`wf_dir.iterdir()` with the suffix filter). -/
def workflowFiles (fs : FS) : List (String × String) :=
  fs.filter (fun e =>
    pyStartsWith e.1 ".github/workflows/" && (pyEndsWith e.1 ".yml" || pyEndsWith e.1 ".yaml"))

/-- Embeds `_detect_ecosystems` (dependabot_exists.py lines 6–26). -/
def detect_ecosystems (fs : FS) : List String :=
  let ecosystems :=
    (if !(workflowFiles fs).isEmpty then ["github-actions"] else [])
    ++ (if FS.isFile fs "package.json" then ["npm"] else [])
    ++ (if FS.isFile fs "pyproject.toml" || FS.isFile fs "requirements.txt" then ["pip"] else [])
    ++ (if FS.isFile fs "Cargo.toml" then ["cargo"] else [])
    ++ (if FS.isFile fs "go.mod" then ["gomod"] else [])
    ++ (if FS.isFile fs "Gemfile" then ["bundler"] else [])
    ++ (if FS.isFile fs "composer.json" then ["composer"] else [])
  if ecosystems.isEmpty then ["github-actions"] else ecosystems

/-- Embeds `DependabotExistsRule.fix` (dependabot_exists.py lines 42–72). -/
def dependabotExistsFix (fs : FS) (dry_run : Bool) : FixOutcome × FS :=
  if FS.isFile fs ".github/dependabot.yml" || FS.isFile fs ".github/dependabot.yaml" then
    (⟨"already_ok", ""⟩, fs)
  else
    let ecosystems := detect_ecosystems fs
    if dry_run then
      (⟨"fixed", "Would create dependabot.yml (" ++ String.intercalate ", " ecosystems ++ ")"⟩, fs)
    else
      let content :=
        "# Dependabot configuration for automated dependency updates\n# https://docs.github.com/en/code-security/dependabot/dependabot-version-updates\nversion: 2\nupdates:\n"
        ++ String.join (ecosystems.map (fun eco =>
          "  - package-ecosystem: \"" ++ eco
            ++ "\"\n    directory: \"/\"\n    schedule:\n      interval: \"weekly\"\n"))
      (⟨"fixed", "Created dependabot.yml (" ++ String.intercalate ", " ecosystems ++ ")"⟩,
        FS.write fs ".github/dependabot.yml" content)

/-- Embeds `PrecommitGitleaksRule.fix` (precommit_gitleaks.py lines 30–71); the
`pre-commit-config.yaml` template is a read-only parameter. -/
def precommitGitleaksFix (fs : FS) (repo_name template : String) (dry_run : Bool) :
    FixOutcome × FS :=
  if repo_name == ".github" then (⟨"skipped", "Defines the hook"⟩, fs)
  else
    match FS.read fs ".pre-commit-config.yaml" with
    | some content =>
      if strIn "tsilva/.github" content then (⟨"already_ok", ""⟩, fs)
      else if dry_run then (⟨"fixed", "Would append gitleaks hook"⟩, fs)
      else
        let app := (if content != "" && !(pyEndsWith content "\n") then "\n" else "")
          ++ "\n"
          ++ "  - repo: https://github.com/tsilva/.github\n    rev: main\n    hooks:\n      - id: gitleaks\n"
        (⟨"fixed", "Appended gitleaks hook"⟩,
          FS.write fs ".pre-commit-config.yaml" (content ++ app))
    | none =>
      if dry_run then (⟨"fixed", "Would create .pre-commit-config.yaml"⟩, fs)
      else (⟨"fixed", "Created .pre-commit-config.yaml"⟩,
        FS.write fs ".pre-commit-config.yaml" template)

/-- Embeds `TrackedIgnoredRule.fix` (tracked_ignored.py lines 20–32): `files` is the
`git ls-files -i -c --exclude-standard` output, and the `git rm --cached`
invocation is an external effect whose return code and stderr are
parameters. -/
def trackedIgnoredFix (path : String) (files : List String) (dry_run : Bool)
    (rm_returncode : Int) (rm_stderr : String) : FixOutcome × List Effect :=
  if files.isEmpty then (⟨"already_ok", ""⟩, [])
  else if dry_run then (⟨"fixed", "Would untrack " ++ toString files.length ++ " file(s)"⟩, [])
  else if rm_returncode != 0 then (⟨"failed", pyStrip rm_stderr⟩, [Effect.gitRmCached path files])
  else (⟨"fixed", "Untracked " ++ toString files.length ++ " file(s)"⟩,
    [Effect.gitRmCached path files])

/-- Embeds `RepoDescriptionRule.fix` (repo_description.py lines 36–62): the GitHub
CLI reads (`gh auth status`, tagline extraction, current description) are
read-only parameters; `tagline` empty models a falsy extraction result; the
`gh repo edit` write is the recorded effect, succeeding iff `set_ok`. -/
def repoDescriptionFix (authenticated : Bool) (github_repo : Option String)
    (readme_is_file : Bool) (tagline github_desc : String) (set_ok : Bool)
    (dry_run : Bool) : FixOutcome × List Effect :=
  if !authenticated then (⟨"skipped", "gh not authenticated"⟩, [])
  else
    match github_repo with
    | none => (⟨"skipped", "No GitHub remote"⟩, [])
    | some gr =>
      if !readme_is_file then (⟨"skipped", "No README.md"⟩, [])
      else if tagline == "" then (⟨"skipped", "No tagline found"⟩, [])
      else if tagline == github_desc then (⟨"already_ok", ""⟩, [])
      else if dry_run then (⟨"fixed", "Would update description to: " ++ tagline⟩, [])
      else if set_ok then
        (⟨"fixed", "Updated description: " ++ tagline⟩, [Effect.ghSetDescription gr tagline])
      else (⟨"failed", "gh repo edit failed"⟩, [Effect.ghSetDescription gr tagline])

/-- Embeds `SettingsDangerousRule.fix` (settings.py lines 33–57): `json.loads` is
modelled by the `parse_allow` parameter returning the
`permissions.allow` list (or `none` when unparseable), and `json.dumps` of
the updated document by `dumps`. -/
def settingsDangerousFix (fs : FS) (parse_allow : String → Option (List String))
    (dangerous_patterns : List String) (dumps : List String → String)
    (dry_run : Bool) : FixOutcome × FS :=
  match FS.read fs ".claude/settings.local.json" with
  | none => (⟨"skipped", "No settings.local.json"⟩, fs)
  | some text =>
    match parse_allow text with
    | none => (⟨"skipped", "Cannot parse settings.local.json"⟩, fs)
    | some allow =>
      let cleaned := allow.filter (fun p => !dangerous_patterns.contains p)
      if cleaned.length == allow.length then (⟨"already_ok", ""⟩, fs)
      else if dry_run then
        let removed := sortBy strLe
          ((allow.filter (fun p => dangerous_patterns.contains p)).eraseDups)
        (⟨"fixed", "Would remove: " ++ String.intercalate ", " removed⟩, fs)
      else (⟨"fixed", "Removed dangerous patterns"⟩,
        FS.write fs ".claude/settings.local.json" (dumps cleaned))

/-- Embeds `SettingsCleanRule.fix` (settings.py lines 67–79): `_check_settings` and
`SettingsOptimizer.auto_fix` belong to the settings analyzer, an external
collaborator; its verdict and rewrite success are parameters, and the
rewrite is the recorded effect. -/
def settingsCleanFix (check_status : Status) (auto_fix_ok : Bool) (dry_run : Bool) :
    FixOutcome × List Effect :=
  if check_status = Status.SKIP then (⟨"skipped", "No settings.local.json or no permissions"⟩, [])
  else if check_status = Status.PASS then (⟨"already_ok", ""⟩, [])
  else if dry_run then (⟨"fixed", "Would optimize settings"⟩, [])
  else if auto_fix_ok then (⟨"fixed", "Optimized settings"⟩, [Effect.optimizerAutoFix])
  else (⟨"failed", "Failed to optimize settings"⟩, [Effect.optimizerAutoFix])

/-- Embeds `ClaudeSandboxRule.fix` (claude_sandbox.py lines 34–59):
`_has_sandbox_enabled` (a JSON read of the two settings files) and the
serialized updated document are parameters; the write target is
`.claude/settings.json`. -/
def claudeSandboxFix (fs : FS) (has_sandbox_enabled : Bool) (new_content : String)
    (dry_run : Bool) : FixOutcome × FS :=
  if has_sandbox_enabled then (⟨"already_ok", ""⟩, fs)
  else if dry_run then (⟨"fixed", "Would enable sandbox"⟩, fs)
  else (⟨"fixed", "Enabled sandbox"⟩, FS.write fs ".claude/settings.json" new_content)

/-- Marker search of `CliReleaseWorkflowRule.fix`: the regex
`publish-pypi\.yml|release\.yml@main` is an alternation of literals. -/
def wfHasReleaseMarker (fs : FS) : Bool :=
  (workflowFiles fs).any (fun e => strIn "publish-pypi.yml" e.2 || strIn "release.yml@main" e.2)

/-- Embeds `CliReleaseWorkflowRule.fix` (cli.py lines 79–103). -/
def cliReleaseWorkflowFix (fs : FS) (template : String) (dry_run : Bool) :
    FixOutcome × FS :=
  if wfHasReleaseMarker fs then (⟨"already_ok", ""⟩, fs)
  else if dry_run then (⟨"fixed", "Would create .github/workflows/release.yml"⟩, fs)
  else (⟨"fixed", "Created .github/workflows/release.yml"⟩,
    FS.write fs ".github/workflows/release.yml" template)

/-! ### `workflows_passing.py` -/

/-- Embeds `WorkflowsPassingRule.check` (workflows_passing.py lines 22–34):
`conclusions` models the prefetched (or directly fetched)
`{workflow_name: conclusion}` dict as a key-unique pair list. -/
def workflowsPassingCheck (authenticated : Bool) (conclusions : List (String × String)) :
    CheckResult :=
  if !authenticated then ⟨.SKIP, "gh not authenticated"⟩
  else if conclusions.isEmpty then ⟨.SKIP, "No completed workflow runs found"⟩
  else
    let failed := conclusions.filter (fun nc => nc.2 != "success")
    if failed.isEmpty then ⟨.PASS, ""⟩
    else ⟨.FAIL, String.intercalate ", "
      ((sortBy (fun a b : String × String => strLe a.1 b.1) failed).map
        (fun nc => nc.1 ++ ": " ++ nc.2))⟩

/-! ### Clone phase of `RuleRunner.run` (engine.py lines 105–143) -/

/-- Embeds `to_clone`: remote non-archived names missing locally, sorted, filtered
by the name filter when one is given. -/
def toCloneList (non_archived all_local : List String) (filter_pattern : String) :
    List String :=
  let t := sortBy strLe (non_archived.filter (fun n => !all_local.contains n))
  if filter_pattern != "" then t.filter (fun n => strIn filter_pattern n) else t

/-- The clone loop: in dry-run every name is reported as would-clone and no
clone happens; otherwise each name is cloned (`clone_ok` tells which clones
succeed), successes and failures are collected.  (The parallel workers
append in nondeterministic order; list order stands in for one
interleaving.) -/
def clonePhase (dry_run : Bool) (to_clone : List String) (clone_ok : String → Bool) :
    List String × List String × List Effect :=
  if dry_run then (to_clone, [], [])
  else (to_clone.filter clone_ok, to_clone.filter (fun n => !clone_ok n),
    to_clone.map Effect.cloneRepo)

end TsilvaMaintain

namespace Gitguard

open TsilvaMaintain

/-- Embeds `_MANAGED_HEADER` (gitguard/rules/gitignore.py). -/
def MANAGED_HEADER : String := "# Managed by tsilva/.github"

/-- Embeds `_MANAGED_SUBHEADER`. -/
def MANAGED_SUBHEADER : String := "# Do not remove - synced automatically"

/-- Line loop of `_parse_managed_rules`: once a header line is seen,
subsequent non-blank non-comment stripped lines are managed rules (the flag
never resets). -/
def parseManagedAux : Bool → List String → List String
  | _, [] => []
  | in_managed, line :: rest =>
    if pyStrip line == MANAGED_HEADER then parseManagedAux true rest
    else if !in_managed then parseManagedAux in_managed rest
    else
      let s := pyStrip line
      if s == "" || pyStartsWith s "#" then parseManagedAux in_managed rest
      else s :: parseManagedAux in_managed rest

/-- Embeds `_parse_managed_rules` (gitguard/rules/gitignore.py lines 37–51). -/
def parse_managed_rules (content : String) : List String :=
  parseManagedAux false (pySplitlines content)

/-- Line loop of `_strip_managed_blocks`: keep lines before the first header,
drop the header and everything after it. -/
def stripManagedAux : Bool → List String → List String
  | _, [] => []
  | in_managed, line :: rest =>
    if pyStrip line == MANAGED_HEADER then stripManagedAux true rest
    else if in_managed then stripManagedAux in_managed rest
    else line :: stripManagedAux in_managed rest

/-- Embeds `_strip_managed_blocks` (gitguard/rules/gitignore.py lines 54–67). -/
def strip_managed_blocks (content : String) : String :=
  let lines := dropTrailingBlanks (stripManagedAux false (pySplitlines content))
  if lines.isEmpty then "" else String.intercalate "\n" lines ++ "\n"

/-- Embeds `_build_managed_block` (gitguard/rules/gitignore.py lines 70–72). -/
def build_managed_block (rules : List String) : String :=
  MANAGED_HEADER ++ "\n" ++ MANAGED_SUBHEADER ++ "\n"
    ++ String.intercalate "\n" rules ++ "\n"

/-- Embeds `GitignoreRule.check` (gitguard/rules/gitignore.py lines 80–111):
essential patterns by case-insensitive substring, then — when the shared
`gitignore.global` document yields a non-empty rule list — set equality of
the managed block against it. -/
def gitignoreCheck (fs : FS) (gitignore_global : List String) : CheckResult :=
  match FS.read fs ".gitignore" with
  | none => ⟨.FAIL, ".gitignore not found"⟩
  | some content =>
    let content_lower := pyLower content
    let missing := ESSENTIAL_GITIGNORE.filter
      (fun pat => !strIn (pyLower (rstripSlash pat)) content_lower)
    if !missing.isEmpty then
      ⟨.FAIL, "Missing " ++ toString missing.length ++ " patterns: "
        ++ String.intercalate " " missing⟩
    else if !gitignore_global.isEmpty then
      let managed := parse_managed_rules content
      if !pySetEq managed gitignore_global then
        let stale := sortBy strLe
          ((managed.filter (fun x => !gitignore_global.contains x)).eraseDups)
        let added := sortBy strLe
          ((gitignore_global.filter (fun x => !managed.contains x)).eraseDups)
        let parts :=
          (if !stale.isEmpty then ["stale: " ++ String.intercalate " " stale] else [])
          ++ (if !added.isEmpty then ["missing: " ++ String.intercalate " " added] else [])
        ⟨.FAIL, "Managed block out of sync (" ++ String.intercalate "; " parts ++ ")"⟩
      else ⟨.PASS, ""⟩
    else ⟨.PASS, ""⟩

/-- Embeds `GitignoreRule.fix` (gitguard/rules/gitignore.py lines 113–154). -/
def gitignoreFix (fs : FS) (gitignore_global : List String) (dry_run : Bool) :
    FixOutcome × FS :=
  let all_rules := if gitignore_global.isEmpty then ESSENTIAL_GITIGNORE else gitignore_global
  let managed_block := build_managed_block all_rules
  match FS.read fs ".gitignore" with
  | none =>
    if dry_run then (⟨"fixed", "Would create .gitignore with managed patterns"⟩, fs)
    else (⟨"fixed", "Created .gitignore (" ++ toString all_rules.length ++ " patterns)"⟩,
      FS.write fs ".gitignore" managed_block)
  | some content =>
    let managed_rules := parse_managed_rules content
    if pySetEq managed_rules all_rules && !managed_rules.isEmpty then (⟨"already_ok", ""⟩, fs)
    else if dry_run then
      let stale := (managed_rules.filter (fun x => !all_rules.contains x)).eraseDups
      let nw := (all_rules.filter (fun x => !managed_rules.contains x)).eraseDups
      let parts :=
        (if !stale.isEmpty then ["remove " ++ toString stale.length ++ " stale"] else [])
        ++ (if !nw.isEmpty then ["add " ++ toString nw.length ++ " new"] else [])
        ++ (if managed_rules.isEmpty then ["add " ++ toString all_rules.length ++ " rules"] else [])
      (⟨"fixed", "Would sync managed block (" ++ String.intercalate ", " parts ++ ")"⟩, fs)
    else
      let repo_content := strip_managed_blocks content
      let new_content :=
        if repo_content != "" then repo_content ++ "\n" ++ managed_block else managed_block
      (⟨"fixed", "Synced managed gitignore block"⟩, FS.write fs ".gitignore" new_content)

end Gitguard

namespace TsilvaMaintain

/-! ### Shared lemmas about the engine -/

/-- The six terminal statuses the engine can record. -/
def STATUSES : List String := ["pass", "skip", "fixed", "fix_failed", "manual", "failed"]

theorem processRule_status (d : Bool) (b : RuleExec) (r : RuleResult)
    (h : processRule d b = .ok r) : r.status ∈ STATUSES := by
  unfold processRule at h
  repeat' split at h
  all_goals first
    | (injection h with h; subst h; simp [STATUSES])
    | injection h

theorem processRules_status (d : Bool) (bs : List RuleExec) (r : RuleResult)
    (h : r ∈ processRules d bs) : r.status ∈ STATUSES := by
  induction bs with
  | nil => simp [processRules] at h
  | cons b rest ih =>
    unfold processRules at h
    split at h
    · rcases List.mem_cons.mp h with rfl | hm
      · exact processRule_status d b r (by assumption)
      · exact ih hm
    · rcases List.mem_singleton.mp h with rfl
      simp [STATUSES]

theorem statusPartition (l : List RuleResult)
    (h : ∀ r ∈ l, r.status ∈ STATUSES) :
    (l.filter (fun r => r.status == "pass" || r.status == "skip")).length
      + (l.filter (fun r => r.status == "fixed")).length
      + (l.filter (fun r =>
          r.status == "manual" || r.status == "failed" || r.status == "fix_failed")).length
      = l.length := by
  induction l with
  | nil => rfl
  | cons r rs ih =>
    have hr := h r (List.mem_cons_self r rs)
    have hrest := ih (fun x hx => h x (List.mem_cons_of_mem r hx))
    simp only [STATUSES, List.mem_cons, List.not_mem_nil, or_false] at hr
    rcases hr with hs | hs | hs | hs | hs | hs <;>
      simp [List.filter, hs] <;> omega

theorem natSumPos (l : List Nat) : 0 < l.sum ↔ ∃ x ∈ l, 0 < x := by
  induction l with
  | nil => simp
  | cons a l ih =>
    simp only [List.sum_cons, List.mem_cons]
    constructor
    · intro h
      by_cases ha : 0 < a
      · exact ⟨a, Or.inl rfl, ha⟩
      · obtain ⟨x, hx, hx0⟩ := ih.mp (by omega)
        exact ⟨x, Or.inr hx, hx0⟩
    · rintro ⟨x, rfl | hx, hx0⟩
      · omega
      · have := ih.mpr ⟨x, hx, hx0⟩
        omega

/-- Claim C3 (confirmed).  Per-(repository, rule) state machine of the fix
path: with the rule applicable and its check failing, `AlreadyOk` records
`"pass"`; `Manual` records `"manual"` with the message of the check; `Skipped`
records `"manual"` with the message of the fix; `Failed` (the residual branch)
records `"failed"`; `Fixed` re-runs the check and records `"fixed"` when the
verify passes and `"fix_failed"` otherwise (also on a verify skip); in
dry-run a `Fixed` outcome is recorded as `"fixed"` directly, without
verification. -/
theorem c3_state_machine (rid msg fmsg vmsg : String) (d : Bool)
    (v2 : Except String CheckResult) :
    processRule d ⟨rid, .ok true, .ok ⟨Status.FAIL, msg⟩, .ok ⟨"already_ok", fmsg⟩, v2⟩
        = .ok ⟨rid, "pass", ""⟩
    ∧ processRule d ⟨rid, .ok true, .ok ⟨Status.FAIL, msg⟩, .ok ⟨"manual", fmsg⟩, v2⟩
        = .ok ⟨rid, "manual", msg⟩
    ∧ processRule d ⟨rid, .ok true, .ok ⟨Status.FAIL, msg⟩, .ok ⟨"skipped", fmsg⟩, v2⟩
        = .ok ⟨rid, "manual", fmsg⟩
    ∧ processRule d ⟨rid, .ok true, .ok ⟨Status.FAIL, msg⟩, .ok ⟨"failed", fmsg⟩, v2⟩
        = .ok ⟨rid, "failed", fmsg⟩
    ∧ processRule false ⟨rid, .ok true, .ok ⟨Status.FAIL, msg⟩, .ok ⟨"fixed", fmsg⟩,
          .ok ⟨Status.PASS, vmsg⟩⟩ = .ok ⟨rid, "fixed", fmsg⟩
    ∧ processRule false ⟨rid, .ok true, .ok ⟨Status.FAIL, msg⟩, .ok ⟨"fixed", fmsg⟩,
          .ok ⟨Status.FAIL, vmsg⟩⟩ = .ok ⟨rid, "fix_failed", vmsg⟩
    ∧ processRule false ⟨rid, .ok true, .ok ⟨Status.FAIL, msg⟩, .ok ⟨"fixed", fmsg⟩,
          .ok ⟨Status.SKIP, vmsg⟩⟩ = .ok ⟨rid, "fix_failed", vmsg⟩
    ∧ processRule true ⟨rid, .ok true, .ok ⟨Status.FAIL, msg⟩, .ok ⟨"fixed", fmsg⟩, v2⟩
        = .ok ⟨rid, "fixed", fmsg⟩ :=
  ⟨rfl, rfl, rfl, rfl, rfl, rfl, rfl, rfl⟩

/-- Claim C7 (confirmed).  Skip versus Fail: a rule whose `applies_to` is false
is recorded as `"skip"` (never a failing status); `WorkflowsPassingRule.check`
returns Skip when `gh` is unauthenticated and when no completed workflow runs
exist; and a `"skip"` result counts into `passed` and never into the
`manual` (unresolved) list. -/
theorem c7_skip_vs_fail :
    (∀ (d : Bool) (rid : String) (c : Except String CheckResult)
        (f : Except String FixOutcome) (v : Except String CheckResult),
      processRule d ⟨rid, .ok false, c, f, v⟩ = .ok ⟨rid, "skip", ""⟩)
    ∧ (∀ cs, workflowsPassingCheck false cs = ⟨Status.SKIP, "gh not authenticated"⟩)
    ∧ workflowsPassingCheck true [] = ⟨Status.SKIP, "No completed workflow runs found"⟩
    ∧ (∀ (n p rid m : String) (rs : List RuleResult),
        RepoResult.passed ⟨n, p, ⟨rid, "skip", m⟩ :: rs⟩ = RepoResult.passed ⟨n, p, rs⟩ + 1
        ∧ RepoResult.manual ⟨n, p, ⟨rid, "skip", m⟩ :: rs⟩ = RepoResult.manual ⟨n, p, rs⟩) := by
  refine ⟨fun d rid c f v => rfl, fun cs => rfl, rfl, fun n p rid m rs => ⟨?_, ?_⟩⟩
  · simp [RepoResult.passed, List.filter]
  · simp [RepoResult.manual, List.filter]

/-- Claim C8 (confirmed).  Opportunistic pre-rule fetch: in non-dry-run mode,
with the dirty probe returning `dval`, the fetch effect is issued exactly
when `dval` is false, before the rule loop runs; and the outcome of the
swallowed `git.fetch_all` call never influences the results of the repository. -/
theorem c8_prefetch :
    (∀ (n p : String) (dval : Bool) (f : Except String Unit) (rules : List RuleExec),
      processRepo false ⟨n, p, .ok dval, f, rules⟩
        = .ok (⟨n, p, processRules false rules⟩, if dval then [] else [Effect.fetchAll p]))
    ∧ (∀ (n p : String) (dval : Bool) (f g : Except String Unit) (rules : List RuleExec),
      processRepo false ⟨n, p, .ok dval, f, rules⟩ = processRepo false ⟨n, p, .ok dval, g, rules⟩) := by
  exact ⟨fun n p dval f rules => by cases dval <;> rfl, fun n p dval f g rules => rfl⟩

/-- A repository whose `repo.is_dirty` access raises (engine.py line 174,
before the `try` block). -/
def c1BadRepo : RepoExec := ⟨"bad", "/repos/bad", .error "boom", .ok (), []⟩

/-- A well-behaved repository with no rules. -/
def c1GoodRepo : RepoExec := ⟨"good", "/repos/good", .ok false, .ok (), []⟩

/-- Claim C1 (corrected) — counterexample to the claim as stated.  In a
non-dry-run over `[good, bad]`, where the `repo.is_dirty` access of `bad` raises,
the exception escapes `_process_repo` (it occurs before the `try` block) and
aborts the whole run: no `RepoResult` list is produced at all — neither a
synthetic INTERNAL result for `bad` nor any result for `good`. -/
theorem c1_counterexample :
    runRepos false [c1GoodRepo, c1BadRepo] = .error "boom" := rfl

/-- Claim C1 (corrected) — the amended isolation property.  An exception
raised *inside the rule loop* is caught at the repository boundary: it
terminates the result list of that repository with the single synthetic
`("INTERNAL", "failed")` result, results of earlier rules are kept, and a
repository whose rules all evaluate cleanly gets one result per rule.
Whole-run totality holds only when, for every repository, the pre-`try`
`repo.is_dirty` access returns normally (or the run is a dry run): then
every repository produces a `RepoResult`. -/
theorem c1_amended_isolation :
    (∀ (d : Bool) (b : RuleExec) (bs : List RuleExec) (e : String),
      processRule d b = .error e →
        processRules d (b :: bs) = [⟨"INTERNAL", "failed", e⟩])
    ∧ (∀ (d : Bool) (b : RuleExec) (r : RuleResult) (bs : List RuleExec),
      processRule d b = .ok r →
        processRules d (b :: bs) = r :: processRules d bs)
    ∧ (∀ (d : Bool) (bs : List RuleExec),
      (∀ b ∈ bs, ∃ r, processRule d b = .ok r) →
        (processRules d bs).length = bs.length)
    ∧ (∀ (dr : Bool) (repos : List RepoExec),
      (∀ re ∈ repos, dr = true ∨ ∃ dval, re.is_dirty = .ok dval) →
        ∃ l, runRepos dr repos = .ok l ∧ l.length = repos.length) := by
  refine ⟨?_, ?_, ?_, ?_⟩
  · intro d b bs e h
    simp [processRules, h]
  · intro d b r bs h
    simp [processRules, h]
  · intro d bs h
    induction bs with
    | nil => rfl
    | cons b rest ih =>
      obtain ⟨r, hr⟩ := h b (List.mem_cons_self b rest)
      simp only [processRules, hr, List.length_cons]
      rw [ih (fun x hx => h x (List.mem_cons_of_mem b hx))]
  · intro dr repos h
    induction repos with
    | nil => exact ⟨[], rfl, rfl⟩
    | cons re rest ih =>
      obtain ⟨l, hl, hlen⟩ := ih (fun x hx => h x (List.mem_cons_of_mem re hx))
      have hok : ∃ pr, processRepo dr re = .ok pr := by
        cases dr with
        | true => exact ⟨_, rfl⟩
        | false =>
          rcases h re (List.mem_cons_self re rest) with hd | ⟨dval, hdv⟩
          · exact absurd hd (by simp)
          · exact ⟨(⟨re.name, re.path, processRules false re.rules⟩,
              if dval then [] else [Effect.fetchAll re.path]),
              by unfold processRepo; rw [hdv]; rfl⟩
      obtain ⟨pr, hpr⟩ := hok
      refine ⟨pr :: l, ?_, by simp [hlen]⟩
      simp [runRepos, hpr, hl]

/-- Witness for `c1_amended_isolation`: a rule whose check raises `"boom"`
yields the single synthetic INTERNAL failed result. -/
theorem c1_isolation_witness :
    processRule false ⟨"R", .ok true, .error "boom", .ok ⟨"manual", ""⟩, .ok ⟨Status.PASS, ""⟩⟩
      = .error "boom"
    ∧ processRules false
        [⟨"R", .ok true, .error "boom", .ok ⟨"manual", ""⟩, .ok ⟨Status.PASS, ""⟩⟩]
      = [⟨"INTERNAL", "failed", "boom"⟩] :=
  ⟨rfl, c1_amended_isolation.1 false _ [] "boom" rfl⟩

/-- Claim C10 (confirmed).  Every result recorded by the rule loop has one of
the six terminal statuses; these partition into the three counter groups,
so `passed + fixed + len(manual) = total` for every `RepoResult` whose
results are so labelled; and `all_ok` holds exactly when `manual` is
empty. -/
theorem c10_counter_partition :
    (∀ (d : Bool) (bs : List RuleExec) (r : RuleResult),
      r ∈ processRules d bs → r.status ∈ STATUSES)
    ∧ (∀ rr : RepoResult, (∀ r ∈ rr.results, r.status ∈ STATUSES) →
        rr.passed + rr.fixed + rr.manual.length = rr.total)
    ∧ (∀ rr : RepoResult, rr.all_ok = true ↔ rr.manual = []) := by
  refine ⟨processRules_status, ?_, ?_⟩
  · intro rr h
    exact statusPartition rr.results h
  · intro rr
    simp [RepoResult.all_ok, List.length_eq_zero]

/-- Witness for `c10_counter_partition` on a concrete three-result
repository. -/
theorem c10_partition_witness :
    RepoResult.passed ⟨"n", "p", [⟨"A", "pass", ""⟩, ⟨"B", "fixed", ""⟩, ⟨"C", "manual", ""⟩]⟩
      + RepoResult.fixed ⟨"n", "p", [⟨"A", "pass", ""⟩, ⟨"B", "fixed", ""⟩, ⟨"C", "manual", ""⟩]⟩
      + (RepoResult.manual ⟨"n", "p", [⟨"A", "pass", ""⟩, ⟨"B", "fixed", ""⟩, ⟨"C", "manual", ""⟩]⟩).length
      = RepoResult.total ⟨"n", "p", [⟨"A", "pass", ""⟩, ⟨"B", "fixed", ""⟩, ⟨"C", "manual", ""⟩]⟩ :=
  c10_counter_partition.2.1 ⟨"n", "p", [⟨"A", "pass", ""⟩, ⟨"B", "fixed", ""⟩, ⟨"C", "manual", ""⟩]⟩
    (by decide)

/-- Claim C4 (confirmed).  Exit signal: with every status among the six the
engine records, the human-summary exit code is nonzero iff some result has
an unresolved status (`"manual"`, `"failed"`, `"fix_failed"`), the JSON exit
code agrees with the summary exit code, and the exit is zero iff every
result is `"pass"`, `"skip"` or `"fixed"`. -/
theorem c4_exit_signal (rrs : List RepoResult)
    (hwf : ∀ rr ∈ rrs, ∀ r ∈ rr.results, r.status ∈ STATUSES) :
    (output_summary_exit rrs ≠ 0 ↔
      ∃ rr ∈ rrs, ∃ r ∈ rr.results,
        r.status ∈ (["manual", "failed", "fix_failed"] : List String))
    ∧ output_json_exit rrs = output_summary_exit rrs
    ∧ (output_summary_exit rrs = 0 ↔
      ∀ rr ∈ rrs, ∀ r ∈ rr.results,
        r.status ∈ (["pass", "skip", "fixed"] : List String)) := by
  have hflt : ∀ {α : Type} (p : α → Bool) (l : List α),
      l.filter p ≠ [] ↔ ∃ x ∈ l, p x = true := by
    intro α p l
    rw [ne_eq, List.filter_eq_nil_iff]
    push_neg
    simp
  have hman : ∀ rr : RepoResult, rr.manual ≠ [] ↔
      ∃ r ∈ rr.results, r.status ∈ (["manual", "failed", "fix_failed"] : List String) := by
    intro rr
    rw [RepoResult.manual, hflt]
    simp only [Bool.or_eq_true, beq_iff_eq, List.mem_cons, List.not_mem_nil, or_false]
    constructor
    · rintro ⟨r, hr, hs⟩
      exact ⟨r, hr, by tauto⟩
    · rintro ⟨r, hr, hs⟩
      exact ⟨r, hr, by tauto⟩
  have hcond : 0 < (rrs.filter (fun rr => !rr.manual.isEmpty)).length ↔
      ∃ rr ∈ rrs, ∃ r ∈ rr.results,
        r.status ∈ (["manual", "failed", "fix_failed"] : List String) := by
    rw [List.length_pos, hflt]
    constructor
    · rintro ⟨rr, hrr, hb⟩
      exact ⟨rr, hrr, (hman rr).mp (by simpa [List.isEmpty_iff] using hb)⟩
    · rintro ⟨rr, hrr, hx⟩
      exact ⟨rr, hrr, by simpa [List.isEmpty_iff] using (hman rr).mpr hx⟩
  have hjcond : 0 < output_json_total_failed rrs ↔
      ∃ rr ∈ rrs, ∃ r ∈ rr.results,
        ¬(r.status = "pass" ∨ r.status = "skip" ∨ r.status = "fixed") := by
    unfold output_json_total_failed
    rw [natSumPos]
    constructor
    · rintro ⟨x, hx, hx0⟩
      rw [List.mem_map] at hx
      obtain ⟨rr, hrr, rfl⟩ := hx
      rw [List.length_pos, hflt] at hx0
      obtain ⟨r, hr, hpr⟩ := hx0
      refine ⟨rr, hrr, r, hr, ?_⟩
      simp at hpr
      tauto
    · rintro ⟨rr, hrr, r, hr, hpr⟩
      refine ⟨_, List.mem_map_of_mem _ hrr, ?_⟩
      rw [List.length_pos, hflt]
      refine ⟨r, hr, ?_⟩
      simp
      tauto
  have hequiv : ∀ rr ∈ rrs, ∀ r ∈ rr.results,
      (¬(r.status = "pass" ∨ r.status = "skip" ∨ r.status = "fixed") ↔
        r.status ∈ (["manual", "failed", "fix_failed"] : List String)) := by
    intro rr hrr r hr
    have h6 := hwf rr hrr r hr
    simp only [STATUSES, List.mem_cons, List.not_mem_nil, or_false] at h6
    rcases h6 with h | h | h | h | h | h <;> simp [h]
  have hsummary : output_summary_exit rrs ≠ 0 ↔
      ∃ rr ∈ rrs, ∃ r ∈ rr.results,
        r.status ∈ (["manual", "failed", "fix_failed"] : List String) := by
    unfold output_summary_exit
    dsimp only
    split_ifs with h
    · exact ⟨fun _ => hcond.mp h, fun _ => one_ne_zero⟩
    · exact ⟨fun h0 => absurd rfl h0, fun hx => absurd (hcond.mpr hx) h⟩
  refine ⟨hsummary, ?_, ?_⟩
  · have hjs : 0 < output_json_total_failed rrs ↔
        0 < (rrs.filter (fun rr => !rr.manual.isEmpty)).length := by
      rw [hjcond, hcond]
      constructor
      · rintro ⟨rr, hrr, r, hr, hn⟩
        exact ⟨rr, hrr, r, hr, (hequiv rr hrr r hr).mp hn⟩
      · rintro ⟨rr, hrr, r, hr, hm⟩
        exact ⟨rr, hrr, r, hr, (hequiv rr hrr r hr).mpr hm⟩
    unfold output_json_exit output_summary_exit
    dsimp only
    split_ifs with h1 h2 h3
    · rfl
    · exact absurd (hjs.mp h1) h2
    · exact absurd (hjs.mpr h3) h1
    · rfl
  · have hpas : ∀ rr ∈ rrs, ∀ r ∈ rr.results,
        (r.status ∉ (["manual", "failed", "fix_failed"] : List String) ↔
          r.status ∈ (["pass", "skip", "fixed"] : List String)) := by
      intro rr hrr r hr
      have h6 := hwf rr hrr r hr
      simp only [STATUSES, List.mem_cons, List.not_mem_nil, or_false] at h6
      rcases h6 with h | h | h | h | h | h <;> simp [h]
    constructor
    · intro h0 rr hrr r hr
      refine (hpas rr hrr r hr).mp ?_
      intro hmem
      exact (hsummary.mpr ⟨rr, hrr, r, hr, hmem⟩) h0
    · intro hall
      by_contra h0
      obtain ⟨rr, hrr, r, hr, hmem⟩ := hsummary.mp h0
      exact ((hpas rr hrr r hr).mpr (hall rr hrr r hr)) hmem

/-- Witness for `c4_exit_signal` on a run with one unresolved result. -/
theorem c4_exit_witness :
    output_json_exit [⟨"r", "/r", [⟨"A", "pass", ""⟩, ⟨"B", "manual", ""⟩]⟩]
      = output_summary_exit [⟨"r", "/r", [⟨"A", "pass", ""⟩, ⟨"B", "manual", ""⟩]⟩] :=
  (c4_exit_signal [⟨"r", "/r", [⟨"A", "pass", ""⟩, ⟨"B", "manual", ""⟩]⟩] (by decide)).2.1

/-- Claim C2 (corrected) — counterexample to the claim as stated.  In the list
`discover_rules()` produces from the rule ids of this snapshot, the
gitignore-completeness rule has id `GITIGNORE_COMPLETE`, which is absent
from `_CANONICAL_ORDER` (that list names `GITIGNORE`, an id no rule class
defines); it is therefore appended after the canonical rules and in
particular comes *after* `TRACKED_IGNORED`, not before it. -/
theorem c2_counterexample :
    (discover_rules_order discovered_ids).findIdx (fun s => s == "TRACKED_IGNORED")
      < (discover_rules_order discovered_ids).findIdx (fun s => s == "GITIGNORE_COMPLETE")
    ∧ "GITIGNORE_COMPLETE" ∈ discover_rules_order discovered_ids
    ∧ "TRACKED_IGNORED" ∈ discover_rules_order discovered_ids := by decide

/-- Claim C2 (corrected) — the amended registry-ordering property.  Every
discovered id appears in the returned order (none is dropped); on the
concrete id set of this snapshot the returned order is the canonical ids
that are present, in canonical order, followed by the three
non-canonical ids (`CI_PASSING`, `GITIGNORE_COMPLETE`, `GITIGNORE_EXISTS`)
in alphabetical order; and the license-existence rule precedes the
README-license-reference rule.  (The gitignore-completeness /
tracked-ignored pair of the original claim fails, see the
counterexample.) -/
theorem c2_amended_registry_order :
    (∀ (ids : List String) (x : String), x ∈ ids → x ∈ discover_rules_order ids)
    ∧ discover_rules_order discovered_ids = [
        "DEFAULT_BRANCH", "LICENSE_EXISTS", "CLAUDE_MD_EXISTS", "PYTHON_PYPROJECT",
        "README_LICENSE", "README_LOGO", "README_CI_BADGE", "TRACKED_IGNORED",
        "CLAUDE_SANDBOX", "SETTINGS_DANGEROUS", "SETTINGS_CLEAN", "PYTHON_MIN_VERSION",
        "CLI_BUILD_BACKEND", "CLI_VERSION", "CLI_RELEASE_WORKFLOW", "CLI_PYPI_READY",
        "DEPENDABOT_EXISTS", "PRECOMMIT_GITLEAKS", "PENDING_COMMITS", "STALE_BRANCHES",
        "CI_WORKFLOW", "WORKFLOWS_PASSING", "RELEASE_WORKFLOW", "PII_SCAN",
        "REPO_DESCRIPTION", "CI_PASSING", "GITIGNORE_COMPLETE", "GITIGNORE_EXISTS"]
    ∧ (discover_rules_order discovered_ids).findIdx (fun s => s == "LICENSE_EXISTS")
        < (discover_rules_order discovered_ids).findIdx (fun s => s == "README_LICENSE") := by
  refine ⟨?_, by decide, by decide⟩
  intro ids x hx
  unfold discover_rules_order
  by_cases hc : x ∈ CANONICAL_ORDER
  · apply List.mem_append_left
    rw [List.mem_filter]
    exact ⟨hc, by simpa [List.contains, List.elem_iff] using hx⟩
  · apply List.mem_append_right
    rw [mem_sortBy, List.mem_filter]
    refine ⟨hx, ?_⟩
    simpa [List.contains, List.elem_iff] using hc

/-- Witness for `c2_amended_registry_order`: a concrete id is never
dropped. -/
theorem c2_registry_witness :
    "GITIGNORE_EXISTS" ∈ discovered_ids
    ∧ "GITIGNORE_EXISTS" ∈ discover_rules_order discovered_ids :=
  ⟨by decide, c2_amended_registry_order.1 discovered_ids "GITIGNORE_EXISTS" (by decide)⟩

/-- If two lists are set-equal and the second is non-empty, the first is
non-empty. -/
theorem pySetEq_ne_nil (a g : List String) (hs : pySetEq a g = true) (hg : g ≠ []) :
    a.isEmpty = false := by
  cases g with
  | nil => exact absurd rfl hg
  | cons y ys =>
    unfold pySetEq at hs
    rw [Bool.and_eq_true] at hs
    have h2 := hs.2
    rw [List.all_cons, Bool.and_eq_true] at h2
    have hy : (y :: ys).contains y = true := by simp
    have ha : a.contains y = true := h2.1
    cases a with
    | nil => simp [List.contains] at ha
    | cons _ _ => rfl

/-- A `.gitignore` whose single comment line contains every essential
pattern as a substring, so the completeness check passes, while no essential
pattern is present as an exact line. -/
def c5FS : FS := [(".gitignore", "# .env .DS_Store node_modules __pycache__ *.pyc .venv\n")]

/-- Claim C5 (corrected) — counterexample to the claim as stated.  On `c5FS`
the check of the auto-fixable `GITIGNORE_COMPLETE` rule passes (its essential
patterns are found by case-insensitive substring search), yet `fix` with
`dry_run=False` (and the shared `gitignore.global` document unavailable)
compares exact lines, finds every rule missing, rewrites `.gitignore`, and
returns `Fixed` — not `AlreadyOk`, and not mutation-free. -/
theorem c5_counterexample :
    gitignoreCompleteCheck c5FS = ⟨Status.PASS, ""⟩
    ∧ (gitignoreCompleteFix c5FS false []).1.status = "fixed"
    ∧ (gitignoreCompleteFix c5FS false []).2 ≠ c5FS := by decide

/-- Claim C5 (corrected) — the amended fix-idempotence property.  For the
existence-style auto-fixable rules (`LICENSE_EXISTS`, `CLAUDE_MD_EXISTS`,
`GITIGNORE_EXISTS`), a passing check implies `fix` returns `AlreadyOk` and
leaves the filesystem untouched; for the merged gitguard `GITIGNORE` rule
the same holds whenever the shared `gitignore.global` document is
available (non-empty); and the fix of `GITIGNORE_COMPLETE` never mutates the
filesystem when it reports `AlreadyOk`.  (When the shared document is
unavailable, a passing gitignore check does *not* imply an `AlreadyOk`
fix — see the counterexample.) -/
theorem c5_amended_idempotence :
    (∀ (fs : FS) (d : Bool) (t a y : String),
      (licenseExistsCheck fs).status = Status.PASS →
        licenseExistsFix fs d t a y = (⟨"already_ok", ""⟩, fs))
    ∧ (∀ (fs : FS) (d : Bool) (t n : String),
      (claudeMdExistsCheck fs).status = Status.PASS →
        claudeMdExistsFix fs d t n = (⟨"already_ok", ""⟩, fs))
    ∧ (∀ (fs : FS) (d : Bool),
      (gitignoreExistsCheck fs).status = Status.PASS →
        gitignoreExistsFix fs d = (⟨"already_ok", ""⟩, fs))
    ∧ (∀ (fs : FS) (g : List String) (d : Bool), g ≠ [] →
      (Gitguard.gitignoreCheck fs g).status = Status.PASS →
        Gitguard.gitignoreFix fs g d = (⟨"already_ok", ""⟩, fs))
    ∧ (∀ (fs : FS) (d : Bool) (g : List String),
      (gitignoreCompleteFix fs d g).1.status = "already_ok" →
        (gitignoreCompleteFix fs d g).2 = fs) := by
  refine ⟨?_, ?_, ?_, ?_, ?_⟩
  · intro fs d t a y h
    by_cases hl : has_license_file fs = true
    · simp [licenseExistsFix, hl]
    · simp [licenseExistsCheck, hl] at h
  · intro fs d t n h
    by_cases hl : FS.isFile fs "CLAUDE.md" = true
    · simp [claudeMdExistsFix, hl]
    · simp [claudeMdExistsCheck, hl] at h
  · intro fs d h
    by_cases hl : FS.isFile fs ".gitignore" = true
    · simp [gitignoreExistsFix, hl]
    · simp [gitignoreExistsCheck, hl] at h
  · intro fs g d hg h
    rcases hr : FS.read fs ".gitignore" with _ | content
    · simp [Gitguard.gitignoreCheck, hr] at h
    · have hgne : g.isEmpty = false := by
        cases g
        · exact absurd rfl hg
        · rfl
      simp only [Gitguard.gitignoreCheck, hr] at h
      split_ifs at h with h1 h2 h3
      · -- essentials present, global non-empty, managed block set-equal
        have hset : pySetEq (Gitguard.parse_managed_rules content) g = true := by
          revert h3
          cases hval : pySetEq (Gitguard.parse_managed_rules content) g <;> simp
        have hne : (Gitguard.parse_managed_rules content).isEmpty = false :=
          pySetEq_ne_nil _ g hset hg
        unfold Gitguard.gitignoreFix
        rw [hr]
        simp [hgne, hset, hne]
      · -- check fell through to the empty-global PASS branch: contradicts hg
        rw [hgne] at h2
        simp at h2
  · intro fs d g h
    rcases hr : FS.read fs ".gitignore" with _ | content
    · simp [gitignoreCompleteFix, hr] at h
    · simp only [gitignoreCompleteFix, hr] at h ⊢
      split_ifs at h ⊢ <;> simp_all

/-- Witness for `c5_amended_idempotence` on a repository that already has a
LICENSE file. -/
theorem c5_idem_witness :
    (licenseExistsCheck [("LICENSE", "MIT")]).status = Status.PASS
    ∧ licenseExistsFix [("LICENSE", "MIT")] false "T" "A" "2025"
        = (⟨"already_ok", ""⟩, [("LICENSE", "MIT")]) :=
  ⟨by decide, c5_amended_idempotence.1 [("LICENSE", "MIT")] false "T" "A" "2025" (by decide)⟩

/-- Claim C9 (confirmed).  `Repo.discover` returns exactly the immediate
children that are directories, contain a `.git` entry, have the filter
substring in their name when a non-empty filter is given, and are not in the
archived set; the returned list is sorted by name; and a missing root yields
the empty list, not an error. -/
theorem c9_discover :
    (∀ (children : List DirEntry) (pat : String) (an : List String) (e : DirEntry),
      e ∈ Repo.discover true children pat true (some an) ↔
        e ∈ children ∧ e.is_dir = true ∧ e.has_git_dir = true
          ∧ (pat = "" ∨ strIn pat e.name = true) ∧ e.name ∉ an)
    ∧ (∀ (root : Bool) (children : List DirEntry) (pat : String) (sa : Bool)
        (an : Option (List String)),
      (Repo.discover root children pat sa an).Pairwise (fun a b => strLe a.name b.name = true))
    ∧ (∀ (children : List DirEntry) (pat : String) (sa : Bool) (an : Option (List String)),
      Repo.discover false children pat sa an = []) := by
  refine ⟨?_, ?_, fun children pat sa an => rfl⟩
  · intro children pat an e
    show e ∈ (sortBy (fun a b => strLe a.name b.name) children).filter _ ↔ _
    rw [List.mem_filter, mem_sortBy]
    simp only [if_true, Bool.and_eq_true, Bool.or_eq_true, beq_iff_eq, Bool.not_eq_true']
    have hc : an.contains e.name = false ↔ e.name ∉ an := by
      rw [← Bool.not_eq_true]
      simp [List.contains, List.elem_iff]
    rw [hc]
    tauto
  · intro root children pat sa an
    cases root with
    | false => exact List.Pairwise.nil
    | true =>
      show ((sortBy (fun a b => strLe a.name b.name) children).filter _).Pairwise _
      refine List.Pairwise.sublist (List.filter_sublist _) ?_
      exact pairwise_sortBy _ (fun a b => strLe_total a.name b.name)
        (fun a b c => strLe_trans a.name b.name c.name) children

/-- Claim C6 (confirmed).  Dry-run purity: with the dry-run flag set, every
embedded fix leaves the filesystem untouched and issues no external
mutation, the clone phase reports every missing repository as would-clone
without cloning, and the per-repository runner issues no fetch while still
evaluating every rule (each repository yields its full result list). -/
theorem c6_dry_run_purity :
    (∀ (fs : FS) (t a y : String), (licenseExistsFix fs true t a y).2 = fs)
    ∧ (∀ (fs : FS) (t n : String), (claudeMdExistsFix fs true t n).2 = fs)
    ∧ (∀ fs : FS, (gitignoreExistsFix fs true).2 = fs)
    ∧ (∀ (fs : FS) (g : List String), (gitignoreCompleteFix fs true g).2 = fs)
    ∧ (∀ fs : FS, (readmeLicenseFix fs true).2 = fs)
    ∧ (∀ (fs : FS) (pr : String → Bool) (n : String), (readmeLogoFix fs pr n true).2 = fs)
    ∧ (∀ fs : FS, (dependabotExistsFix fs true).2 = fs)
    ∧ (∀ (fs : FS) (n t : String), (precommitGitleaksFix fs n t true).2 = fs)
    ∧ (∀ (p : String) (files : List String) (rc : Int) (err : String),
        (trackedIgnoredFix p files true rc err).2 = [])
    ∧ (∀ (auth : Bool) (gr : Option String) (rm : Bool) (tl gd : String) (ok : Bool),
        (repoDescriptionFix auth gr rm tl gd ok true).2 = [])
    ∧ (∀ (fs : FS) (pa : String → Option (List String)) (dp : List String)
        (du : List String → String), (settingsDangerousFix fs pa dp du true).2 = fs)
    ∧ (∀ (st : Status) (ok : Bool), (settingsCleanFix st ok true).2 = [])
    ∧ (∀ (fs : FS) (hs : Bool) (nc : String), (claudeSandboxFix fs hs nc true).2 = fs)
    ∧ (∀ (fs : FS) (t : String), (cliReleaseWorkflowFix fs t true).2 = fs)
    ∧ (∀ (fs : FS) (g : List String), (Gitguard.gitignoreFix fs g true).2 = fs)
    ∧ (∀ (tc : List String) (ok : String → Bool), clonePhase true tc ok = (tc, [], []))
    ∧ (∀ repos : List RepoExec,
        runRepos true repos
          = .ok (repos.map (fun re => (⟨re.name, re.path, processRules true re.rules⟩, [])))) := by
  refine ⟨?_, ?_, ?_, ?_, ?_, ?_, ?_, ?_, ?_, ?_, ?_, ?_, ?_, ?_, ?_, ?_, ?_⟩
  · intro fs t a y
    by_cases h : has_license_file fs = true <;> simp [licenseExistsFix, h]
  · intro fs t n
    by_cases h : FS.isFile fs "CLAUDE.md" = true <;> simp [claudeMdExistsFix, h]
  · intro fs
    by_cases h : FS.isFile fs ".gitignore" = true <;> simp [gitignoreExistsFix, h]
  · intro fs g
    rcases hr : FS.read fs ".gitignore" with _ | c
    · simp [gitignoreCompleteFix, hr]
    · simp only [gitignoreCompleteFix, hr]
      split_ifs <;> rfl
  · intro fs
    rcases hr : FS.read fs "README.md" with _ | c
    · simp [readmeLicenseFix, hr]
    · simp only [readmeLicenseFix, hr]
      split_ifs <;> rfl
  · intro fs pr n
    rcases hr : FS.read fs "README.md" with _ | c
    · simp [readmeLogoFix, hr]
    · rcases hf : LOGO_LOCATIONS.find? (fun loc => FS.isFile fs loc) with _ | loc
      · simp [readmeLogoFix, hr, hf]
      · simp only [readmeLogoFix, hr, hf]
        split_ifs <;> rfl
  · intro fs
    simp only [dependabotExistsFix]
    split_ifs <;> rfl
  · intro fs n t
    simp only [precommitGitleaksFix]
    split_ifs
    · rfl
    · rcases hr : FS.read fs ".pre-commit-config.yaml" with _ | c
      · simp [hr]
      · simp only [hr]
        split_ifs <;> rfl
  · intro p files rc err
    simp only [trackedIgnoredFix]
    split_ifs <;> rfl
  · intro auth gr rm tl gd ok
    unfold repoDescriptionFix
    rcases gr with _ | g
    · split_ifs <;> simp_all
    · split_ifs <;> simp_all
  · intro fs pa dp du
    rcases hr : FS.read fs ".claude/settings.local.json" with _ | c
    · simp [settingsDangerousFix, hr]
    · rcases hp : pa c with _ | allow
      · simp [settingsDangerousFix, hr, hp]
      · simp only [settingsDangerousFix, hr, hp]
        split_ifs <;> rfl
  · intro st ok
    simp only [settingsCleanFix]
    split_ifs <;> rfl
  · intro fs hs nc
    simp only [claudeSandboxFix]
    split_ifs <;> rfl
  · intro fs t
    simp only [cliReleaseWorkflowFix]
    split_ifs <;> rfl
  · intro fs g
    rcases hr : FS.read fs ".gitignore" with _ | c
    · simp [Gitguard.gitignoreFix, hr]
    · simp only [Gitguard.gitignoreFix, hr]
      split_ifs <;> rfl
  · intro tc ok
    rfl
  · intro repos
    induction repos with
    | nil => rfl
    | cons re rest ih =>
      unfold runRepos
      rw [show processRepo true re
          = .ok (⟨re.name, re.path, processRules true re.rules⟩, []) from rfl, ih]
      rfl

end TsilvaMaintain
